import Mathlib

/-!
# Stochastic volume estimation and tally normalization

A formal model of the two components documented by this repository's
notebooks and slides: a Monte-Carlo Volume Estimator (rejection sampling
over an axis-aligned bounding box) and a Tally Normalizer that converts
reaction-rate tallies into per-nuclide microscopic quantities using the
estimator's output.

The repository itself contains only notebooks calling an external
library, so every operation below is modelled from the specification's
description of the algorithm (hit counting over a stream of sampled
points, the binomial-proportion variance formula, the error taxonomy,
and the normalization formulas).
-/

namespace VolumeEstimation

/-- A sampled point in 3D space, with rational coordinates. -/
abbrev Point := Fin 3 → ℚ

/-- Modelled from the spec: a BoundingBox is a pair of corner
coordinates (lower, upper); every sampled point lies within it. -/
structure BoundingBox where
  lower : Fin 3 → ℚ
  upper : Fin 3 → ℚ

/-- Volume of a bounding box: product over all three axes of
(upper[i] - lower[i]). -/
def BoundingBox.volume (b : BoundingBox) : ℚ :=
  ∏ i : Fin 3, (b.upper i - b.lower i)

/-- A bounding box is valid when it is neither degenerate nor inverted:
strictly lower[i] < upper[i] on every axis. -/
def BoundingBox.valid (b : BoundingBox) : Prop :=
  ∀ i : Fin 3, b.lower i < b.upper i

instance (b : BoundingBox) : Decidable b.valid :=
  inferInstanceAs (Decidable (∀ i : Fin 3, b.lower i < b.upper i))

/-- Modelled from the spec: a Domain is a named region of space with a
pure point-membership test. -/
structure Domain where
  id : ℕ
  contains : Point → Bool

/-- Modelled from the spec: the per-domain result of a volume
estimation run: identifier, volume point estimate, and the variance of
that estimate (the reported uncertainty is its square root). -/
structure DomainResult where
  id : ℕ
  volume : ℚ
  variance : ℚ
deriving DecidableEq

/-- Modelled from the spec: error taxonomy of the Volume Estimator. -/
inductive VolError where
  | InvalidInput
  | GeometryError
deriving DecidableEq

/-- Hit counter for one domain over a stream of sampled points: the
number of points that lie inside the domain. -/
def hitCount (d : Domain) (pts : List Point) : ℕ :=
  pts.countP d.contains

/-- Modelled from the spec: point estimate of volume for a domain with
hit count k out of N samples: (k / N) × volume(BoundingBox). -/
def pointEstimate (b : BoundingBox) (N k : ℕ) : ℚ :=
  ((k : ℚ) / (N : ℚ)) * b.volume

/-- Modelled from the spec: variance of the volume estimate,
Var = volume(BoundingBox)² × p̂(1 − p̂) / N with p̂ = k/N. -/
def varianceEstimate (b : BoundingBox) (N k : ℕ) : ℚ :=
  b.volume ^ 2 * (((k : ℚ) / (N : ℚ)) * (1 - (k : ℚ) / (N : ℚ))) / (N : ℚ)

/-- Modelled from the spec: the reported uncertainty is the square root
of the variance estimate (a 1-sigma standard error). -/
noncomputable def uncertainty (b : BoundingBox) (N k : ℕ) : ℝ :=
  Real.sqrt ((varianceEstimate b N k : ℚ) : ℝ)

/-- Modelled from the spec: one full run of the Volume Estimator.
Inputs: the ordered sequence of domains, the sample count N, the
bounding box, and the pseudorandom draw stream (modelled as an explicit
sequence of points; draw i is stream i). Fails with InvalidInput when
N ≤ 0, when the bounding box is degenerate or inverted, or when the
domain sequence is empty; otherwise performs exactly N draws, counts
hits per domain, and returns one DomainResult per requested domain. -/
def runVolumeEstimator (doms : List Domain) (N : ℤ) (b : BoundingBox)
    (stream : ℕ → Point) : Except VolError (List DomainResult) :=
  if N ≤ 0 then .error .InvalidInput
  else if doms.isEmpty then .error .InvalidInput
  else if ∃ i : Fin 3, b.upper i ≤ b.lower i then .error .InvalidInput
  else
    let pts := (List.range N.toNat).map stream
    .ok (doms.map fun d =>
      ⟨d.id, pointEstimate b N.toNat (hitCount d pts),
        varianceEstimate b N.toNat (hitCount d pts)⟩)

/-- Modelled from the spec: parallel-worker accumulation. The N draws
are partitioned into chunks, one per worker; each worker counts hits
over its own chunk with a private counter, and the counters are summed
after all workers finish. -/
def workerHitCount (d : Domain) (chunks : List (List Point)) : ℕ :=
  (chunks.map fun c => hitCount d c).sum

/-- Modelled from the spec: derived atom count, mean part: estimated
total atom count = atom density × volume point estimate (density is
treated as exact). -/
def atomCountMean (density : ℚ) (b : BoundingBox) (N k : ℕ) : ℚ :=
  density * pointEstimate b N k

/-- Modelled from the spec: derived atom count, uncertainty part: with
density exact and volume the sole stochastic input, the uncertainty is
density × (volume uncertainty). -/
noncomputable def atomCountUncertainty (density : ℚ) (b : BoundingBox)
    (N k : ℕ) : ℝ :=
  (density : ℝ) * uncertainty b N k

/-- Relative uncertainty of a reported quantity: uncertainty divided by
the mean. -/
noncomputable def relUncOf (mean : ℚ) (u : ℝ) : ℝ :=
  u / (mean : ℝ)

/-- Modelled from the spec: a ReactionTally consumed by the Tally
Normalizer: mean, standard deviation and the domain it was accumulated
over. -/
structure Tally where
  domain : ℕ
  mean : ℚ
  stddev : ℚ

/-- Relative standard deviation of a tally. -/
def Tally.relStdDev (t : Tally) : ℚ :=
  t.stddev / t.mean

/-- Modelled from the spec: the atom-count entry of a VolumeEstimate
consumed by the Tally Normalizer: mean and standard deviation of the
atom count for the matching nuclide. -/
structure AtomCount where
  mean : ℚ
  stddev : ℚ

/-- Relative standard deviation of an atom count. -/
def AtomCount.relStdDev (a : AtomCount) : ℚ :=
  a.stddev / a.mean

/-- Modelled from the spec: the derived MicroscopicQuantity: mean, and
the squared relative uncertainty (the reported relative uncertainty is
its square root). -/
structure MicroQty where
  mean : ℚ
  relVariance : ℚ
deriving DecidableEq

/-- The reported relative uncertainty of a microscopic quantity. -/
noncomputable def MicroQty.relUncertainty (q : MicroQty) : ℝ :=
  Real.sqrt ((q.relVariance : ℚ) : ℝ)

/-- Modelled from the spec: error taxonomy of the Tally Normalizer. -/
inductive NormError where
  | MissingVolumeData
  | DivideByZero
deriving DecidableEq

/-- Modelled from the spec: normalization of a single tally. The
atom-count entry is looked up by the tally's domain identifier; failure
with MissingVolumeData when no VolumeEstimate entry exists for that
domain, with DivideByZero when the atom-count mean is zero; otherwise
the result mean is ReactionTally.mean / atomCount.mean and the squared
relative uncertainty is relStdDev(tally)² + relStdDev(atomCount)². -/
def normalizeOne (lookup : ℕ → Option AtomCount) (t : Tally) :
    Except NormError MicroQty :=
  match lookup t.domain with
  | none => .error .MissingVolumeData
  | some a =>
    if a.mean = 0 then .error .DivideByZero
    else .ok ⟨t.mean / a.mean, t.relStdDev ^ 2 + a.relStdDev ^ 2⟩

/-- Modelled from the spec: batch normalization. Each quantity is
normalized independently; a failure for one quantity skips only that
quantity and the others proceed. -/
def normalizeBatch (lookup : ℕ → Option AtomCount) (ts : List Tally) :
    List (Except NormError MicroQty) :=
  ts.map (normalizeOne lookup)

/-- The concrete bounding box of the notebook scenario:
[-10,-10,-10] to [10,10,10], volume 8000. -/
def box0 : BoundingBox :=
  ⟨fun _ => -10, fun _ => 10⟩

/-- A domain containing every point (used as a concrete witness). -/
def domAll : Domain :=
  ⟨1, fun _ => true⟩

/-- A domain containing exactly the points with first coordinate 1
(used as a concrete witness of a nonempty but easily missed domain). -/
def domPlane : Domain :=
  ⟨2, fun p => decide (p 0 = 1)⟩

/-- A draw stream that always returns the origin (a concrete witness
stream). -/
def stream0 : ℕ → Point :=
  fun _ _ => 0

/-- The concrete reaction tally of the spec scenario: mean 1.0,
standard deviation 0.01 (1% relative). -/
def tallyC3 : Tally :=
  ⟨7, 1, 1 / 100⟩

/-- The concrete atom-count entry of the spec scenario: mean 2.0,
standard deviation 0.1 (5% relative). -/
def atomC3 : AtomCount :=
  ⟨2, 1 / 10⟩

/-- A lookup table holding the concrete atom-count entry for every
domain. -/
def lookupC3 : ℕ → Option AtomCount :=
  fun _ => some atomC3

/-- A domain complementary to domPlane: the points whose first
coordinate is not 1. -/
def domCompl : Domain :=
  ⟨3, fun p => !(decide (p 0 = 1))⟩

/-- C1: for every run of the Volume Estimator with a valid BoundingBox, a
positive sample count N and a non-empty domain sequence, the volume point
estimate reported for each domain with hit count k equals (k / N) times
the volume of the BoundingBox, the product over all three axes of
(upper[i] - lower[i]). -/
theorem run_reports_hit_fraction_times_box_volume
    (doms : List Domain) (N : ℤ) (b : BoundingBox) (stream : ℕ → Point)
    (hN : 0 < N) (hb : b.valid) (hd : doms ≠ []) :
    runVolumeEstimator doms N b stream =
      .ok (doms.map fun d =>
        ⟨d.id,
         ((hitCount d ((List.range N.toNat).map stream) : ℚ) / (N : ℚ)) *
           ∏ i : Fin 3, (b.upper i - b.lower i),
         varianceEstimate b N.toNat
           (hitCount d ((List.range N.toNat).map stream))⟩) := by
  have h1 : ¬ N ≤ 0 := not_le.mpr hN
  have h2 : ¬ doms.isEmpty = true := by
    simpa [List.isEmpty_iff] using hd
  have h3 : ¬ ∃ i : Fin 3, b.upper i ≤ b.lower i := by
    rintro ⟨i, hi⟩
    exact absurd (hb i) (not_lt.mpr hi)
  rw [runVolumeEstimator, if_neg h1, if_neg h2, if_neg h3]
  refine congrArg _ (List.map_congr_left fun d _ => ?_)
  have hcast : ((N.toNat : ℚ)) = ((N : ℚ)) := by
    exact_mod_cast congrArg (fun z : ℤ => (z : ℚ)) (Int.toNat_of_nonneg hN.le)
  simp only [pointEstimate, BoundingBox.volume, hcast]

/-- C6: the Volume Estimator fails with InvalidInput exactly when the
sample count N is nonpositive, the BoundingBox is degenerate or inverted
(some upper[i] ≤ lower[i]), or the domain sequence is empty; and for
every valid BoundingBox and non-empty domain sequence, N = 1 produces a
valid estimate rather than an error. -/
theorem run_invalid_input_iff (doms : List Domain) (N : ℤ)
    (b : BoundingBox) (stream : ℕ → Point) :
    (runVolumeEstimator doms N b stream = .error .InvalidInput ↔
      N ≤ 0 ∨ (∃ i : Fin 3, b.upper i ≤ b.lower i) ∨ doms = []) ∧
    (b.valid → doms ≠ [] →
      ∃ rs, runVolumeEstimator doms 1 b stream = .ok rs) := by
  constructor
  · rw [runVolumeEstimator]
    split_ifs with h1 h2 h3
    · simp [h1]
    · simp [List.isEmpty_iff.mp h2]
    · simp [h3]
    · rw [List.isEmpty_iff] at h2
      simp [h1, h2, h3]
  · intro hb hd
    have h1 : ¬ (1 : ℤ) ≤ 0 := by norm_num
    have h2 : ¬ doms.isEmpty = true := by
      simpa [List.isEmpty_iff] using hd
    have h3 : ¬ ∃ i : Fin 3, b.upper i ≤ b.lower i := by
      rintro ⟨i, hi⟩
      exact absurd (hb i) (not_lt.mpr hi)
    rw [runVolumeEstimator, if_neg h1, if_neg h2, if_neg h3]
    exact ⟨_, rfl⟩

/-- Witness for C1 at a concrete input: one all-containing domain,
N = 2, the notebook bounding box and the constant origin stream. -/
theorem run_reports_hit_fraction_times_box_volume_witness :
    (0 : ℤ) < 2 ∧ box0.valid ∧ [domAll] ≠ [] ∧
    runVolumeEstimator [domAll] 2 box0 stream0 =
      .ok ([domAll].map fun d =>
        ⟨d.id,
         ((hitCount d ((List.range (2 : ℤ).toNat).map stream0) : ℚ) /
             (((2 : ℤ) : ℚ))) *
           ∏ i : Fin 3, (box0.upper i - box0.lower i),
         varianceEstimate box0 (2 : ℤ).toNat
           (hitCount d ((List.range (2 : ℤ).toNat).map stream0))⟩) :=
  ⟨by norm_num, fun i => by norm_num [box0], by simp,
   run_reports_hit_fraction_times_box_volume [domAll] 2 box0 stream0
     (by norm_num) (fun i => by norm_num [box0]) (by simp)⟩

/-- C2: the reported uncertainty for hit count k out of N equals
sqrt(volume(BoundingBox)² · p(1−p) / N) with p = k/N, a 1-sigma
binomial-proportion standard error; for the notebook box of volume 8000
and N = 10⁶, the point estimate 524.384 (hit count 65548) has
uncertainty within 0.002 of 1.98. -/
theorem uncertainty_is_binomial_standard_error :
    (∀ (b : BoundingBox) (N k : ℕ),
      uncertainty b N k =
        Real.sqrt ((b.volume : ℝ) ^ 2 * ((k : ℝ) / (N : ℝ)) *
          ((1 : ℝ) - (k : ℝ) / (N : ℝ)) / (N : ℝ))) ∧
    box0.volume = 8000 ∧
    pointEstimate box0 1000000 65548 = 524384 / 1000 ∧
    |uncertainty box0 1000000 65548 - 198 / 100| < 1 / 500 := by
  refine ⟨?_, ?_, ?_, ?_⟩
  · intro b N k
    unfold uncertainty varianceEstimate
    congr 1
    push_cast
    ring
  · norm_num [BoundingBox.volume, box0, Fin.prod_univ_three]
  · norm_num [pointEstimate, BoundingBox.volume, box0, Fin.prod_univ_three]
  · have hq : varianceEstimate box0 1000000 65548 =
        (3828216231 : ℚ) / 976562500 := by
      norm_num [varianceEstimate, BoundingBox.volume, box0, Fin.prod_univ_three]
    have hv : ((varianceEstimate box0 1000000 65548 : ℚ) : ℝ) =
        3828216231 / 976562500 := by
      rw [hq]; norm_num
    unfold uncertainty
    rw [hv, abs_lt]
    constructor
    · have h := (Real.lt_sqrt (by norm_num : (0 : ℝ) ≤ 1978 / 1000)).mpr
        (by norm_num : ((1978 : ℝ) / 1000) ^ 2 < 3828216231 / 976562500)
      linarith
    · have h := (Real.sqrt_lt' (by norm_num : (0 : ℝ) < 1982 / 1000)).mpr
        (by norm_num : (3828216231 : ℝ) / 976562500 < ((1982 : ℝ) / 1000) ^ 2)
      linarith

/-- C8: a domain with hit count 0 receives a volume point estimate of
zero and a reported uncertainty of zero; and zero uncertainty does not
indicate an exact result, since a nonempty domain (here one containing
the point (1,1,1)) is still reported as 0 ± 0 by a positive-N run whose
draws all miss it. -/
theorem zero_hits_reported_as_zero_with_zero_uncertainty :
    (∀ (b : BoundingBox) (N : ℕ),
      pointEstimate b N 0 = 0 ∧ uncertainty b N 0 = 0) ∧
    (∃ q : Point, domPlane.contains q = true) ∧
    (0 : ℤ) < 3 ∧
    hitCount domPlane ((List.range (3 : ℤ).toNat).map stream0) = 0 ∧
    runVolumeEstimator [domPlane] 3 box0 stream0 =
      .ok [⟨domPlane.id, 0, 0⟩] := by
  refine ⟨?_, ⟨fun _ => 1, by simp [domPlane]⟩, by norm_num, rfl, ?_⟩
  · intro b N
    refine ⟨by simp [pointEstimate], ?_⟩
    unfold uncertainty
    have h : varianceEstimate b N 0 = 0 := by simp [varianceEstimate]
    rw [h]
    simp
  · rw [runVolumeEstimator, if_neg (by norm_num), if_neg (by simp),
      if_neg (by norm_num [box0])]
    have h0 : hitCount domPlane (List.map stream0 (List.range 3)) = 0 := rfl
    simp [h0, pointEstimate, varianceEstimate]

/-- C3: for every tally and matching atom-count entry with nonzero
mean, the Tally Normalizer returns a MicroscopicQuantity whose mean is
tally.mean / atomCount.mean and whose relative uncertainty is
sqrt(relStdDev(tally)² + relStdDev(atomCount)²); for tally mean 1.0
with 1% relative stddev and atom count 2.0 with 5% relative stddev the
result has mean 0.5 and relative uncertainty within 0.001 of 5.1%. -/
theorem normalizer_mean_and_relative_uncertainty :
    (∀ (lookup : ℕ → Option AtomCount) (t : Tally) (a : AtomCount),
      lookup t.domain = some a → a.mean ≠ 0 →
      ∃ q : MicroQty, normalizeOne lookup t = .ok q ∧
        q.mean = t.mean / a.mean ∧
        q.relUncertainty =
          Real.sqrt ((t.relStdDev : ℝ) ^ 2 + (a.relStdDev : ℝ) ^ 2)) ∧
    (∃ q : MicroQty, normalizeOne lookupC3 tallyC3 = .ok q ∧
      q.mean = 1 / 2 ∧ |q.relUncertainty - 51 / 1000| < 1 / 1000) := by
  constructor
  · intro lookup t a hl ha
    refine ⟨⟨t.mean / a.mean, t.relStdDev ^ 2 + a.relStdDev ^ 2⟩, ?_, rfl, ?_⟩
    · simp only [normalizeOne, hl]
      rw [if_neg ha]
    · unfold MicroQty.relUncertainty
      congr 1
      push_cast
      ring
  · refine ⟨⟨tallyC3.mean / atomC3.mean,
      tallyC3.relStdDev ^ 2 + atomC3.relStdDev ^ 2⟩, ?_, ?_, ?_⟩
    · rw [normalizeOne]
      norm_num [lookupC3, atomC3]
    · norm_num [tallyC3, atomC3]
    · have hq : tallyC3.relStdDev ^ 2 + atomC3.relStdDev ^ 2 =
          (13 : ℚ) / 5000 := by
        norm_num [tallyC3, atomC3, Tally.relStdDev, AtomCount.relStdDev]
      unfold MicroQty.relUncertainty
      rw [abs_lt]
      have hv : (((⟨tallyC3.mean / atomC3.mean,
          tallyC3.relStdDev ^ 2 + atomC3.relStdDev ^ 2⟩ :
            MicroQty).relVariance : ℚ) : ℝ) = 13 / 5000 := by
        show ((tallyC3.relStdDev ^ 2 + atomC3.relStdDev ^ 2 : ℚ) : ℝ) = 13 / 5000
        rw [hq]; norm_num
      rw [hv]
      constructor
      · have h := (Real.lt_sqrt (by norm_num : (0 : ℝ) ≤ 50 / 1000)).mpr
          (by norm_num : ((50 : ℝ) / 1000) ^ 2 < 13 / 5000)
        linarith
      · have h := (Real.sqrt_lt' (by norm_num : (0 : ℝ) < 52 / 1000)).mpr
          (by norm_num : (13 : ℝ) / 5000 < ((52 : ℝ) / 1000) ^ 2)
        linarith

/-- C4: for a domain with known material composition, the estimated
atom count per nuclide is the nuclide's atom density times the domain's
volume point estimate, and the relative uncertainty of the atom count
is at least (in fact equal to) that of the volume estimate, density
being exact and the volume the sole stochastic input. -/
theorem atom_count_density_times_volume (density : ℚ)
    (b : BoundingBox) (N k : ℕ) (hρ : 0 < density) :
    atomCountMean density b N k = density * pointEstimate b N k ∧
    relUncOf (atomCountMean density b N k)
        (atomCountUncertainty density b N k) ≥
      relUncOf (pointEstimate b N k) (uncertainty b N k) := by
  refine ⟨rfl, ge_of_eq ?_⟩
  unfold relUncOf atomCountMean atomCountUncertainty
  push_cast
  rw [mul_div_mul_left _ _ (by exact_mod_cast hρ.ne' : ((density : ℝ)) ≠ 0)]

/-- Witness for C4 at a concrete input: density 2, the notebook box,
N = 4 samples, hit count 3. -/
theorem atom_count_density_times_volume_witness :
    (0 : ℚ) < 2 ∧
    (atomCountMean 2 box0 4 3 = 2 * pointEstimate box0 4 3 ∧
      relUncOf (atomCountMean 2 box0 4 3) (atomCountUncertainty 2 box0 4 3) ≥
        relUncOf (pointEstimate box0 4 3) (uncertainty box0 4 3)) :=
  ⟨by norm_num, atom_count_density_times_volume 2 box0 4 3 (by norm_num)⟩

/-- C7: the Tally Normalizer fails with MissingVolumeData exactly when
no atom-count entry exists for the tally's domain, fails with
DivideByZero exactly when the matching entry's mean is zero, and in a
batch each quantity is normalized independently: entry i of the batch
output is exactly the normalization of tally i, whatever happens to the
other entries. -/
theorem normalizer_error_taxonomy_and_batch_independence
    (lookup : ℕ → Option AtomCount) (ts : List Tally) (t : Tally) :
    (normalizeOne lookup t = .error .MissingVolumeData ↔
      lookup t.domain = none) ∧
    (normalizeOne lookup t = .error .DivideByZero ↔
      ∃ a : AtomCount, lookup t.domain = some a ∧ a.mean = 0) ∧
    (normalizeBatch lookup ts).length = ts.length ∧
    (∀ i : ℕ, (normalizeBatch lookup ts)[i]? =
      (ts[i]?).map (normalizeOne lookup)) := by
  refine ⟨?_, ?_, ?_, ?_⟩
  · rw [normalizeOne]
    cases h : lookup t.domain with
    | none => simp
    | some a =>
      simp only [h]
      split_ifs with hm <;> simp
  · rw [normalizeOne]
    cases h : lookup t.domain with
    | none => simp
    | some a =>
      simp only [h]
      split_ifs with hm <;> simp [hm]
  · exact List.length_map ts (normalizeOne lookup)
  · intro i
    exact List.getElem?_map (normalizeOne lookup) ts i

/-- When C is the disjoint union of A and B, every point counted for C
is counted for exactly one of A and B, so the hit counters add up. -/
theorem hitCount_disjoint_union (A B C : Domain) (pts : List Point)
    (hdisj : ∀ p : Point, ¬(A.contains p = true ∧ B.contains p = true))
    (hunion : ∀ p : Point, C.contains p = (A.contains p || B.contains p)) :
    hitCount C pts = hitCount A pts + hitCount B pts := by
  induction pts with
  | nil => rfl
  | cons q l ih =>
    have hu := hunion q
    simp only [hitCount, List.countP_cons] at ih ⊢
    rw [ih, hu]
    cases hA : A.contains q <;> cases hB : B.contains q
    · simp [hA, hB]
    · simp [hA, hB]
      omega
    · simp [hA, hB]
      omega
    · exact absurd ⟨hA, hB⟩ (hdisj q)

/-- C5: for disjoint domains A and B whose union is domain C, all
estimated from the same point stream in one run, the estimated volume
of A plus that of B equals that of C exactly, hence in particular
within the combined uncertainty of the three estimates. -/
theorem disjoint_sum_within_combined_uncertainty
    (A B C : Domain) (b : BoundingBox) (N : ℕ) (pts : List Point)
    (hdisj : ∀ p : Point, ¬(A.contains p = true ∧ B.contains p = true))
    (hunion : ∀ p : Point, C.contains p = (A.contains p || B.contains p)) :
    pointEstimate b N (hitCount A pts) + pointEstimate b N (hitCount B pts) =
      pointEstimate b N (hitCount C pts) ∧
    |((pointEstimate b N (hitCount A pts) + pointEstimate b N (hitCount B pts) -
        pointEstimate b N (hitCount C pts) : ℚ) : ℝ)| ≤
      uncertainty b N (hitCount A pts) + uncertainty b N (hitCount B pts) +
        uncertainty b N (hitCount C pts) := by
  have hk := hitCount_disjoint_union A B C pts hdisj hunion
  have hsum : pointEstimate b N (hitCount A pts) +
      pointEstimate b N (hitCount B pts) =
      pointEstimate b N (hitCount C pts) := by
    rw [hk]
    unfold pointEstimate
    push_cast
    ring
  refine ⟨hsum, ?_⟩
  rw [hsum, sub_self]
  unfold uncertainty
  simp only [Rat.cast_zero, abs_zero]
  positivity
/-- Witness for C5 at a concrete input: domPlane and its complement
partition the all-containing domain; three origin draws. -/
theorem disjoint_sum_within_combined_uncertainty_witness :
    (∀ p : Point, ¬(domPlane.contains p = true ∧ domCompl.contains p = true)) ∧
    (∀ p : Point, domAll.contains p =
      (domPlane.contains p || domCompl.contains p)) ∧
    (pointEstimate box0 3 (hitCount domPlane ((List.range 3).map stream0)) +
        pointEstimate box0 3 (hitCount domCompl ((List.range 3).map stream0)) =
      pointEstimate box0 3 (hitCount domAll ((List.range 3).map stream0)) ∧
    |((pointEstimate box0 3 (hitCount domPlane ((List.range 3).map stream0)) +
        pointEstimate box0 3 (hitCount domCompl ((List.range 3).map stream0)) -
        pointEstimate box0 3 (hitCount domAll ((List.range 3).map stream0)) :
          ℚ) : ℝ)| ≤
      uncertainty box0 3 (hitCount domPlane ((List.range 3).map stream0)) +
        uncertainty box0 3 (hitCount domCompl ((List.range 3).map stream0)) +
        uncertainty box0 3 (hitCount domAll ((List.range 3).map stream0))) :=
  ⟨fun p => by cases h : decide (p 0 = 1) <;> simp [domCompl, domPlane, h],
   fun p => by cases h : decide (p 0 = 1) <;> simp [domAll, domCompl, domPlane, h],
   disjoint_sum_within_combined_uncertainty domPlane domCompl domAll box0 3
     ((List.range 3).map stream0)
     (fun p => by cases h : decide (p 0 = 1) <;> simp [domCompl, domPlane, h])
     (fun p => by cases h : decide (p 0 = 1) <;> simp [domAll, domCompl, domPlane, h])⟩

/-- C9: partitioning the same sequence of draws across any number of
workers, each accumulating a private per-domain hit counter over its
share, and summing the counters after all workers finish yields exactly
the estimates of a single sequential pass over the same draws. -/
theorem parallel_workers_match_sequential (d : Domain)
    (chunks : List (List Point)) (pts : List Point) (b : BoundingBox)
    (N : ℕ) (hpart : chunks.flatten = pts) :
    workerHitCount d chunks = hitCount d pts ∧
    pointEstimate b N (workerHitCount d chunks) =
      pointEstimate b N (hitCount d pts) ∧
    varianceEstimate b N (workerHitCount d chunks) =
      varianceEstimate b N (hitCount d pts) ∧
    uncertainty b N (workerHitCount d chunks) =
      uncertainty b N (hitCount d pts) := by
  have h : workerHitCount d chunks = hitCount d pts := by
    subst hpart
    unfold workerHitCount hitCount
    exact (List.countP_flatten d.contains chunks).symm
  exact ⟨h, by rw [h], by rw [h], by rw [h]⟩

/-- Witness for C9 at a concrete input: the three origin draws split
into two worker chunks. -/
theorem parallel_workers_match_sequential_witness :
    ([[stream0 0], [stream0 1, stream0 2]].flatten =
      [stream0 0, stream0 1, stream0 2]) ∧
    (workerHitCount domAll [[stream0 0], [stream0 1, stream0 2]] =
      hitCount domAll [stream0 0, stream0 1, stream0 2] ∧
    pointEstimate box0 3
        (workerHitCount domAll [[stream0 0], [stream0 1, stream0 2]]) =
      pointEstimate box0 3 (hitCount domAll [stream0 0, stream0 1, stream0 2]) ∧
    varianceEstimate box0 3
        (workerHitCount domAll [[stream0 0], [stream0 1, stream0 2]]) =
      varianceEstimate box0 3
        (hitCount domAll [stream0 0, stream0 1, stream0 2]) ∧
    uncertainty box0 3
        (workerHitCount domAll [[stream0 0], [stream0 1, stream0 2]]) =
      uncertainty box0 3 (hitCount domAll [stream0 0, stream0 1, stream0 2])) :=
  ⟨rfl,
   parallel_workers_match_sequential domAll [[stream0 0], [stream0 1, stream0 2]]
     [stream0 0, stream0 1, stream0 2] box0 3 rfl⟩

/-- The hit count of a run over N draws never exceeds N. -/
theorem hitCount_le_draws (d : Domain) (N : ℕ) (stream : ℕ → Point) :
    hitCount d ((List.range N).map stream) ≤ N := by
  have h : ((List.range N).map stream).countP d.contains ≤
      ((List.range N).map stream).length := List.countP_le_length d.contains
  simpa [hitCount] using h

/-- C10: in every run with a valid bounding box and positive N, the hit
count satisfies k ≤ N, the reported volume estimate lies between 0 and
volume(BoundingBox), and the reported uncertainty lies between 0 and
volume(BoundingBox) / (2·sqrt N), since p(1−p) ≤ 1/4. -/
theorem estimate_and_uncertainty_bounds (b : BoundingBox) (N : ℕ)
    (d : Domain) (stream : ℕ → Point) (hb : b.valid) (hN : 0 < N) :
    hitCount d ((List.range N).map stream) ≤ N ∧
    0 ≤ pointEstimate b N (hitCount d ((List.range N).map stream)) ∧
    pointEstimate b N (hitCount d ((List.range N).map stream)) ≤ b.volume ∧
    0 ≤ uncertainty b N (hitCount d ((List.range N).map stream)) ∧
    uncertainty b N (hitCount d ((List.range N).map stream)) ≤
      (b.volume : ℝ) / (2 * Real.sqrt (N : ℝ)) := by
  have hkN : hitCount d ((List.range N).map stream) ≤ N :=
    hitCount_le_draws d N stream
  have hV : 0 < b.volume := Finset.prod_pos fun i _ => sub_pos.mpr (hb i)
  have hNQ : (0 : ℚ) < (N : ℚ) := by exact_mod_cast hN
  have hp0 : (0 : ℚ) ≤ (hitCount d ((List.range N).map stream) : ℚ) / (N : ℚ) :=
    div_nonneg (by positivity) hNQ.le
  have hp1 : (hitCount d ((List.range N).map stream) : ℚ) / (N : ℚ) ≤ 1 := by
    rw [div_le_one hNQ]
    exact_mod_cast hkN
  refine ⟨hkN, mul_nonneg hp0 hV.le, ?_, Real.sqrt_nonneg _, ?_⟩
  · calc (hitCount d ((List.range N).map stream) : ℚ) / (N : ℚ) * b.volume ≤
        1 * b.volume := mul_le_mul_of_nonneg_right hp1 hV.le
      _ = b.volume := one_mul _
  · have hvar : varianceEstimate b N (hitCount d ((List.range N).map stream)) ≤
        b.volume ^ 2 / 4 / (N : ℚ) := by
      unfold varianceEstimate
      rw [div_le_div_iff_of_pos_right hNQ]
      nlinarith [sq_nonneg ((hitCount d ((List.range N).map stream) : ℚ) / (N : ℚ) - 1 / 2),
        sq_nonneg b.volume]
    have hcast : ((varianceEstimate b N
        (hitCount d ((List.range N).map stream)) : ℚ) : ℝ) ≤
        (b.volume : ℝ) ^ 2 / 4 / (N : ℝ) := by
      exact_mod_cast hvar
    have hrhs : Real.sqrt ((b.volume : ℝ) ^ 2 / 4 / (N : ℝ)) =
        (b.volume : ℝ) / (2 * Real.sqrt (N : ℝ)) := by
      have hVR : (0 : ℝ) < (b.volume : ℝ) := by exact_mod_cast hV
      have hNR : (0 : ℝ) < Real.sqrt (N : ℝ) :=
        Real.sqrt_pos.mpr (by exact_mod_cast hN)
      rw [show (b.volume : ℝ) ^ 2 / 4 / (N : ℝ) =
          ((b.volume : ℝ) / (2 * Real.sqrt (N : ℝ))) ^ 2 by
        rw [div_pow, mul_pow, Real.sq_sqrt (by positivity : (0 : ℝ) ≤ (N : ℝ))]
        ring]
      exact Real.sqrt_sq (by positivity)
    calc uncertainty b N (hitCount d ((List.range N).map stream)) ≤
        Real.sqrt ((b.volume : ℝ) ^ 2 / 4 / (N : ℝ)) := Real.sqrt_le_sqrt hcast
      _ = (b.volume : ℝ) / (2 * Real.sqrt (N : ℝ)) := hrhs

/-- Witness for C10 at a concrete input: the notebook box, the
all-containing domain, N = 5 origin draws. -/
theorem estimate_and_uncertainty_bounds_witness :
    box0.valid ∧ 0 < 5 ∧
    (hitCount domAll ((List.range 5).map stream0) ≤ 5 ∧
    0 ≤ pointEstimate box0 5 (hitCount domAll ((List.range 5).map stream0)) ∧
    pointEstimate box0 5 (hitCount domAll ((List.range 5).map stream0)) ≤
      box0.volume ∧
    0 ≤ uncertainty box0 5 (hitCount domAll ((List.range 5).map stream0)) ∧
    uncertainty box0 5 (hitCount domAll ((List.range 5).map stream0)) ≤
      (box0.volume : ℝ) / (2 * Real.sqrt ((5 : ℕ) : ℝ))) :=
  ⟨fun i => by norm_num [box0], by norm_num,
   estimate_and_uncertainty_bounds box0 5 domAll stream0
     (fun i => by norm_num [box0]) (by norm_num)⟩

end VolumeEstimation
